import Mathlib

/-!
Verification development for the OpenAI provider of the `sim` repository
(src/providers/openai/index.ts).  The provider adapts a chat-completion
backend into a uniform request/response contract and contains a bounded
tool-execution loop.  The backend (`openai.chat.completions.create`) and
the tool executor (`executeTool`) are opaque capabilities and are modelled
as function parameters; everything else is translated from the source.
-/

namespace Sim

/-- A JSON-like value, the payload type for tool parameters, arguments and
outputs.  The claims only inspect values for equality, so a flat value type
suffices. -/
inductive Value where
  | vNull
  | vBool (b : Bool)
  | vNum (n : Int)
  | vStr (s : String)
  deriving DecidableEq, Repr

/-- A JSON object: ordered key/value fields, as produced by JSON.parse. -/
abbrev Obj := List (String × Value)

/-- The raw argument string of a tool call, together with the outcome of
running JSON.parse on it: either it parses to an object or JSON.parse
throws.  The actual JSON text grammar lives in the external JSON library,
so only the parse outcome is modelled. -/
inductive RawArgs where
  | wellFormed (fields : Obj)
  | malformed (text : String)
  deriving DecidableEq, Repr

/-- Outcome of JSON.parse on a raw argument payload (line 107 / line 143:
JSON.parse(toolCall.function.arguments)); `none` models a thrown
SyntaxError. -/
def jsonParse : RawArgs → Option Obj
  | RawArgs.wellFormed fields => some fields
  | RawArgs.malformed _ => none

/-- A conversation message.  `basic` covers the system/user/prior messages
with a plain string content; the other two constructors are the shapes the
loop appends (lines 158-177). -/
inductive Message where
  | basic (role : String) (content : String)
  | assistantToolCall (id : String) (name : String) (arguments : RawArgs)
  | toolResultMsg (tool_call_id : String) (output : Value)
  deriving DecidableEq, Repr

/-- The `function` part of a backend tool-call request. -/
structure FunctionCall where
  name : String
  arguments : RawArgs
  deriving DecidableEq, Repr

/-- One tool-call request emitted by the backend inside a completion. -/
structure ToolCallRequest where
  id : String
  function : FunctionCall
  deriving DecidableEq, Repr

/-- Usage counts of one completion; each field may be absent. -/
structure CompletionUsage where
  prompt_tokens : Option Nat
  completion_tokens : Option Nat
  total_tokens : Option Nat
  deriving DecidableEq, Repr

/-- The message of the first choice of a completion. -/
structure CompletionMessage where
  content : Option String
  tool_calls : Option (List ToolCallRequest)
  deriving DecidableEq, Repr

/-- One backend completion.  `message0` models the optional chain
`choices[0]?.message` collapsed into a single option; `usage` may be
absent. -/
structure Completion where
  message0 : Option CompletionMessage
  usage : Option CompletionUsage
  deriving DecidableEq, Repr

/-- A caller-supplied tool descriptor.  `parameters` is the (opaque)
schema sent to the backend; `params` are the default parameter values
spread into the merged arguments (line 150), `[]` when absent. -/
structure Tool where
  id : String
  description : String
  parameters : Value
  params : Obj
  deriving DecidableEq, Repr

/-- The provider request (ProviderRequest).  `responseFormat` is the
caller's flag requesting structured JSON output, modelled as the
truthiness of the field. -/
structure ProviderRequest where
  apiKey : Option String
  systemPrompt : Option String
  context : Option String
  messages : Option (List Message)
  model : Option String
  temperature : Option Int
  maxTokens : Option Nat
  responseFormat : Bool
  tools : Option (List Tool)
  deriving DecidableEq, Repr

/-- Cumulative token usage of a response (lines 96-100). -/
structure TokenUsage where
  prompt : Nat
  completion : Nat
  total : Nat
  deriving DecidableEq, Repr

/-- One entry of the response's toolCalls list: name plus parsed
arguments (lines 104-108). -/
structure NamedToolCall where
  name : String
  arguments : Obj
  deriving DecidableEq, Repr

/-- The provider response (ProviderResponse). -/
structure ProviderResponse where
  content : String
  model : Option String
  tokens : TokenUsage
  toolCalls : Option (List NamedToolCall)
  toolResults : Option (List Value)
  deriving DecidableEq, Repr

/-- The function-declaration shape sent to the backend for one tool
(lines 52-59, inner object). -/
structure FunctionSchema where
  name : String
  description : String
  parameters : Value
  deriving DecidableEq, Repr

/-- One entry of the payload's tools list (lines 52-59). -/
structure ToolSchemaEntry where
  type : String
  function : FunctionSchema
  deriving DecidableEq, Repr

/-- The completion request payload built at lines 62-81. -/
structure Payload where
  model : String
  messages : List Message
  temperature : Option Int
  max_tokens : Option Nat
  response_format : Option String
  tools : Option (List ToolSchemaEntry)
  tool_choice : Option String
  deriving DecidableEq, Repr

/-- The opaque completion backend: given the index of the invocation
(0 for the initial request) and the payload sent, return one completion.
Models `openai.chat.completions.create`. -/
abbrev Backend := Nat → Payload → Completion

/-- Result of the opaque tool executor. -/
structure ToolRunResult where
  success : Bool
  output : Value
  deriving DecidableEq, Repr

/-- The opaque tool-execution capability: `executeTool(name, args, raw)`. -/
abbrev ToolRunner := String → Obj → Bool → ToolRunResult

/-- JS falsiness of `request.apiKey` (line 17): absent or empty string. -/
def apiKeyMissing (request : ProviderRequest) : Bool :=
  match request.apiKey with
  | none => true
  | some s => s = ""

/-- Conversation assembly, lines 26-48: optional system message, optional
context as a user message, then the prior messages in order. -/
def buildMessages (request : ProviderRequest) : List Message :=
  (match request.systemPrompt with
    | some s => [Message.basic "system" s]
    | none => [])
  ++ (match request.context with
    | some c => [Message.basic "user" c]
    | none => [])
  ++ request.messages.getD []

/-- Translation of one tool to the backend schema (lines 52-59). -/
def translateTool (tool : Tool) : ToolSchemaEntry :=
  { type := "function"
    function :=
      { name := tool.id
        description := tool.description
        parameters := tool.parameters } }

/-- Lines 50-60: `request.tools?.length ? request.tools.map(...) :
undefined` — absent or empty tool set yields no schema at all. -/
def translateTools (request : ProviderRequest) : Option (List ToolSchemaEntry) :=
  match request.tools with
  | none => none
  | some ts => if ts.length ≠ 0 then some (ts.map translateTool) else none

/-- Payload construction, lines 62-81.  Tools and tool_choice are added
only when the translated tool list is present and non-empty. -/
def buildPayload (request : ProviderRequest) : Payload :=
  let tools := translateTools request
  let base : Payload :=
    { model := request.model.getD "gpt-4o"
      messages := buildMessages request
      temperature := request.temperature
      max_tokens := request.maxTokens
      response_format := if request.responseFormat then some "json_object" else none
      tools := none
      tool_choice := none }
  if (tools.getD []).length ≠ 0 then
    { base with tools := tools, tool_choice := some "auto" }
  else base

/-- JS object-spread update of one key: if the key exists its value is
overwritten in place, otherwise the pair is appended. -/
def insertPair (o : Obj) (k : String) (v : Value) : Obj :=
  if o.any (fun p => p.1 = k) then
    o.map (fun p => if p.1 = k then (k, v) else p)
  else o ++ [(k, v)]

/-- JS object spread of two objects (line 150: the spread of tool.params
then toolArgs): start from the first object and fold the second object's
entries over it, later entries overriding. -/
def spreadMerge (a b : Obj) : Obj :=
  b.foldl (fun acc p => insertPair acc p.1 p.2) a

/-- JS property access on an object: the value at the first field with
the given key, if any. -/
def lookupObj : Obj → String → Option Value
  | [], _ => none
  | p :: rest, k => if p.1 = k then some p.2 else lookupObj rest k

/-- State threaded through one batch of tool calls: the mutable
conversation, the accumulated tool results, and (instrumentation) the
log of executeTool invocations actually performed, as (name, mergedArgs)
pairs. -/
structure BatchState where
  currentMessages : List Message
  toolResults : List Value
  execLog : List (String × Obj)
  deriving DecidableEq, Repr

/-- The per-call handler of the sync loop, lines 140-181.  A JSON.parse
failure is caught by the per-call try/catch and skips the call; an
unknown tool name or an executor-reported failure `continue`s; on success
the output is recorded and the assistant call-record and tool
result-record are appended, keyed by the call's id. -/
def processToolCall (tools : Option (List Tool)) (run : ToolRunner)
    (st : BatchState) (toolCall : ToolCallRequest) : BatchState :=
  match jsonParse toolCall.function.arguments with
  | none => st
  | some toolArgs =>
    match (tools.getD []).find? (fun t => t.id = toolCall.function.name) with
    | none => st
    | some tool =>
      let mergedArgs := spreadMerge tool.params toolArgs
      let result := run toolCall.function.name mergedArgs true
      let st1 := { st with execLog := st.execLog ++ [(toolCall.function.name, mergedArgs)] }
      if result.success then
        { st1 with
          toolResults := st1.toolResults ++ [result.output]
          currentMessages := st1.currentMessages ++
            [Message.assistantToolCall toolCall.id toolCall.function.name
              toolCall.function.arguments,
             Message.toolResultMsg toolCall.id result.output] }
      else st1

/-- The `for` loop over one completion's tool calls (lines 140-181). -/
def processBatch (tools : Option (List Tool)) (run : ToolRunner)
    (st : BatchState) (calls : List ToolCallRequest) : BatchState :=
  calls.foldl (processToolCall tools run) st

/-- `MAX_ITERATIONS` (line 130). -/
def MAX_ITERATIONS : Nat := 10

/-- The mutable loop variables of lines 95-129, plus instrumentation:
`invocations` counts the backend calls performed so far and `received`
records the completions the backend returned, in order. -/
structure LoopState where
  content : String
  tokens : TokenUsage
  toolCallsInResponse : Option (List ToolCallRequest)
  batch : BatchState
  iterationCount : Nat
  invocations : Nat
  received : List Completion
  deriving Repr

/-- The completion the backend returns in one loop iteration (line 190):
the next payload is the initial payload with the mutated conversation
substituted, and the call index is the number of invocations performed so
far. -/
def iterResponse (backend : Backend) (run : ToolRunner) (request : ProviderRequest)
    (payload : Payload) (st : LoopState) (calls : List ToolCallRequest) : Completion :=
  backend st.invocations
    { payload with messages := (processBatch request.tools run st.batch calls).currentMessages }

/-- One iteration of the sync loop, lines 140-207: process the batch,
issue the next completion with the mutated conversation, update the
content only when the new completion's text is truthy, pull the next
tool calls, accumulate usage when present, and increment the counter. -/
def loopIteration (backend : Backend) (run : ToolRunner) (request : ProviderRequest)
    (payload : Payload) (st : LoopState) (calls : List ToolCallRequest) : LoopState :=
  let batch := processBatch request.tools run st.batch calls
  let resp := iterResponse backend run request payload st calls
  let content :=
    match resp.message0.bind CompletionMessage.content with
    | some c => if c = "" then st.content else c
    | none => st.content
  let tokens :=
    match resp.usage with
    | some u =>
      { prompt := st.tokens.prompt + u.prompt_tokens.getD 0
        completion := st.tokens.completion + u.completion_tokens.getD 0
        total := st.tokens.total + u.total_tokens.getD 0 }
    | none => st.tokens
  { content := content
    tokens := tokens
    toolCallsInResponse := resp.message0.bind CompletionMessage.tool_calls
    batch := batch
    iterationCount := st.iterationCount + 1
    invocations := st.invocations + 1
    received := st.received ++ [resp] }

/-- The sync-mode while loop, lines 133-208, as fuel recursion: the
source condition `iterationCount < MAX_ITERATIONS` with the counter
incremented once per iteration is equivalent to starting with fuel
`MAX_ITERATIONS - iterationCount` and spending one unit per iteration.
Each iteration breaks when no tool calls are pending, otherwise runs
`loopIteration`. -/
def runLoop (backend : Backend) (run : ToolRunner) (request : ProviderRequest)
    (payload : Payload) : Nat → LoopState → LoopState
  | 0, st => st
  | fuel + 1, st =>
    match st.toolCallsInResponse with
    | none => st
    | some [] => st
    | some calls =>
      runLoop backend run request payload fuel
        (loopIteration backend run request payload st calls)

/-- Extraction of the response's toolCalls from the first completion,
lines 102-108: an absent tool_calls field yields `[]`; the `.map` runs
JSON.parse on every call's arguments with no surrounding try/catch, so
one malformed payload throws out of executeRequest. -/
def extractToolCallsList : List ToolCallRequest → Except String (List NamedToolCall)
  | [] => Except.ok []
  | toolCall :: rest =>
    match jsonParse toolCall.function.arguments with
    | some args =>
      match extractToolCallsList rest with
      | Except.ok tail =>
        Except.ok ({ name := toolCall.function.name, arguments := args } :: tail)
      | Except.error e => Except.error e
    | none => Except.error "Unexpected token in JSON"

/-- Lines 102-108 on the optional tool_calls field: absent yields `[]`
(the `|| []` fallback), present runs the throwing map. -/
def extractToolCalls (tool_calls : Option (List ToolCallRequest)) :
    Except String (List NamedToolCall) :=
  match tool_calls with
  | none => Except.ok []
  | some l => extractToolCallsList l

/-- The tool-execution mode, hardcoded at line 15. -/
inductive ToolExecutionMode where
  | parametersOnly
  | sync
  deriving DecidableEq, Repr

/-- Line 15: `const toolExecutionMode = 'parameters-only'`. -/
def toolExecutionMode : ToolExecutionMode := ToolExecutionMode.parametersOnly

/-- The observable outcome of one executeRequest run: the returned
response or the thrown error, plus instrumentation — how many backend
completions were performed (and which, in `received`), how many loop
iterations actually ran, and the executeTool invocations performed. -/
structure RunOutcome where
  result : Except String ProviderResponse
  completions : Nat
  iterations : Nat
  execLog : List (String × Obj)
  received : List Completion
  deriving Repr

/-- The loop variables right after the initial completion (lines 84-103
and 127-129): content and tokens extracted from the first completion with
JS default fallbacks, its tool calls pending, the assembled conversation,
iteration counter zero, one backend invocation performed and recorded. -/
def initialLoopState (backend : Backend) (request : ProviderRequest) : LoopState :=
  let currentResponse := backend 0 (buildPayload request)
  { content := (currentResponse.message0.bind CompletionMessage.content).getD ""
    tokens :=
      { prompt := (currentResponse.usage.bind CompletionUsage.prompt_tokens).getD 0
        completion := (currentResponse.usage.bind CompletionUsage.completion_tokens).getD 0
        total := (currentResponse.usage.bind CompletionUsage.total_tokens).getD 0 }
    toolCallsInResponse := currentResponse.message0.bind CompletionMessage.tool_calls
    batch := { currentMessages := buildMessages request, toolResults := [], execLog := [] }
    iterationCount := 0
    invocations := 1
    received := [currentResponse] }

/-- The immediate return of lines 110-124 (parameters-only mode or no
tool calls): one completion performed, no loop, no toolResults field;
toolCalls is present exactly when non-empty.  The execution mode of line
15 is lifted to a parameter of `executeRequestWith` below so that both
branches of the source's mode test can be stated. -/
def immediateOutcome (backend : Backend) (request : ProviderRequest)
    (toolCalls : List NamedToolCall) : RunOutcome :=
  let st0 := initialLoopState backend request
  { result := Except.ok
      { content := st0.content
        model := request.model
        tokens := st0.tokens
        toolCalls := if toolCalls.length > 0 then some toolCalls else none
        toolResults := none }
    completions := 1, iterations := 0, execLog := [], received := st0.received }

/-- The sync path, lines 126-212 and 220-226: run the loop from the
initial state with the cap as fuel, then aggregate the final state.
`toolCalls` is still the first completion's extraction. -/
def loopOutcome (backend : Backend) (run : ToolRunner) (request : ProviderRequest)
    (toolCalls : List NamedToolCall) : RunOutcome :=
  let stFinal := runLoop backend run request (buildPayload request) MAX_ITERATIONS
    (initialLoopState backend request)
  { result := Except.ok
      { content := stFinal.content
        model := request.model
        tokens := stFinal.tokens
        toolCalls := if toolCalls.length > 0 then some toolCalls else none
        toolResults :=
          if stFinal.batch.toolResults.length > 0 then
            some stFinal.batch.toolResults
          else none }
    completions := stFinal.invocations
    iterations := stFinal.iterationCount
    execLog := stFinal.batch.execLog
    received := stFinal.received }

/-- Dispatch of executeRequest: missing key throws (lines 17-19), a
malformed payload in the first completion's tool calls throws out of the
extraction (line 107), parameters-only mode or no tool calls returns
immediately (lines 110-124), otherwise the sync loop runs. -/
def executeRequestWith (mode : ToolExecutionMode) (backend : Backend)
    (run : ToolRunner) (request : ProviderRequest) : RunOutcome :=
  if apiKeyMissing request then
    { result := Except.error "API key is required for OpenAI"
      completions := 0, iterations := 0, execLog := [], received := [] }
  else
    let st0 := initialLoopState backend request
    match extractToolCalls st0.toolCallsInResponse with
    | Except.error e =>
      { result := Except.error e
        completions := 1, iterations := 0, execLog := [], received := st0.received }
    | Except.ok toolCalls =>
      if mode = ToolExecutionMode.parametersOnly ∨ toolCalls.length = 0 then
        immediateOutcome backend request toolCalls
      else
        loopOutcome backend run request toolCalls

/-- The provider's executeRequest as shipped: the mode is the hardcoded
constant of line 15. -/
def executeRequest (backend : Backend) (run : ToolRunner)
    (request : ProviderRequest) : RunOutcome :=
  executeRequestWith toolExecutionMode backend run request

/-- The token contribution of one completion: each usage component counts
as 0 when absent — the `|| 0` fallbacks of lines 97-99 and 202-204, and
the skipped update of line 201 when usage is absent altogether. -/
def usageContribution (c : Completion) : TokenUsage :=
  { prompt := (c.usage.bind CompletionUsage.prompt_tokens).getD 0
    completion := (c.usage.bind CompletionUsage.completion_tokens).getD 0
    total := (c.usage.bind CompletionUsage.total_tokens).getD 0 }

/-- The token-accounting invariant of the loop state: the running counts
equal the componentwise sums of the contributions of the completions
received so far, and one completion was received per invocation. -/
def tokensInvariant (st : LoopState) : Prop :=
  st.tokens.prompt = (st.received.map fun c => (usageContribution c).prompt).sum ∧
  st.tokens.completion = (st.received.map fun c => (usageContribution c).completion).sum ∧
  st.tokens.total = (st.received.map fun c => (usageContribution c).total).sum ∧
  st.received.length = st.invocations

/-! Concrete fixtures: a tool with default parameters, deterministic
backends and a deterministic executor, used to instantiate the theorems
below at concrete inputs. -/

/-- A tool whose default parameters are x = 1, y = 2. -/
def toolAdd : Tool :=
  { id := "add", description := "adds two numbers", parameters := Value.vNull,
    params := [("x", Value.vNum 1), ("y", Value.vNum 2)] }

/-- An executor that always succeeds with a fixed output. -/
def runnerOk : ToolRunner := fun _ _ _ => { success := true, output := Value.vStr "ok" }

/-- A well-formed tool call for `toolAdd` supplying y = 9. -/
def callAdd : ToolCallRequest :=
  { id := "call1"
    function := { name := "add", arguments := RawArgs.wellFormed [("y", Value.vNum 9)] } }

/-- A completion that requests `callAdd` and reports usage 10/5/15. -/
def compWithCall : Completion :=
  { message0 := some { content := some "thinking", tool_calls := some [callAdd] }
    usage := some { prompt_tokens := some 10, completion_tokens := some 5, total_tokens := some 15 } }

/-- A backend whose every completion requests a tool call. -/
def backendAlwaysCalls : Backend := fun _ _ => compWithCall

/-- A completion with plain text and no tool calls. -/
def compPlain : Completion :=
  { message0 := some { content := some "done", tool_calls := none }
    usage := some { prompt_tokens := some 10, completion_tokens := some 5, total_tokens := some 15 } }

/-- A backend that never requests tool calls. -/
def backendPlain : Backend := fun _ _ => compPlain

/-- The response the provider returns for `backendPlain` on `reqBasic`
in parameters-only mode. -/
def respPlain : ProviderResponse :=
  { content := "done", model := some "gpt-4o"
    tokens := { prompt := 10, completion := 5, total := 15 }
    toolCalls := none, toolResults := none }

/-- A well-formed tool call naming a tool that is not in the request's
tool set. -/
def callOther : ToolCallRequest :=
  { id := "call2", function := { name := "mul", arguments := RawArgs.wellFormed [] } }

/-- A completion that requests `callOther` and reports no usage. -/
def compWithOtherCall : Completion :=
  { message0 := some { content := none, tool_calls := some [callOther] }, usage := none }

/-- A backend whose first completion requests the `add` tool, whose second
requests a different tool, and whose later completions request none. -/
def backendSwitching : Backend := fun n _ =>
  if n = 0 then compWithCall else if n = 1 then compWithOtherCall else compPlain

/-- The response the provider returns for `backendSwitching` on `reqBasic`
in sync mode. -/
def respSwitching : ProviderResponse :=
  { content := "done", model := some "gpt-4o"
    tokens := { prompt := 20, completion := 10, total := 30 }
    toolCalls := some [{ name := "add", arguments := [("y", Value.vNum 9)] }]
    toolResults := some [Value.vStr "ok"] }

/-- The response the provider returns for `backendAlwaysCalls` on
`reqBasic` in parameters-only mode. -/
def respParamsOnly : ProviderResponse :=
  { content := "thinking", model := some "gpt-4o"
    tokens := { prompt := 10, completion := 5, total := 15 }
    toolCalls := some [{ name := "add", arguments := [("y", Value.vNum 9)] }]
    toolResults := none }

/-- A tool call whose raw argument payload does not parse. -/
def callBad : ToolCallRequest :=
  { id := "bad1", function := { name := "add", arguments := RawArgs.malformed "not json" } }

/-- A completion whose single tool call has a malformed payload. -/
def compWithBadCall : Completion :=
  { message0 := some { content := some "x", tool_calls := some [callBad] }
    usage := none }

/-- A backend whose first completion carries the malformed tool call. -/
def backendBad : Backend := fun _ _ => compWithBadCall

/-- A request with a valid API key and the `add` tool available. -/
def reqBasic : ProviderRequest :=
  { apiKey := some "sk-test", systemPrompt := none, context := none
    messages := some [Message.basic "user" "hello"], model := some "gpt-4o"
    temperature := none, maxTokens := none, responseFormat := false
    tools := some [toolAdd] }

/-- A request with no API key. -/
def reqNoKey : ProviderRequest :=
  { apiKey := none, systemPrompt := none, context := none
    messages := some [Message.basic "user" "hello"], model := some "gpt-4o"
    temperature := none, maxTokens := none, responseFormat := false
    tools := some [toolAdd] }

/-- A request with an absent tool set. -/
def reqNoTools : ProviderRequest :=
  { apiKey := some "sk-test", systemPrompt := some "be brief", context := none
    messages := some [Message.basic "user" "hello"], model := some "gpt-4o"
    temperature := none, maxTokens := none, responseFormat := false
    tools := none }

/-! Theorems.  First, dispatch lemmas characterizing which branch of
executeRequest runs. -/

/-- A missing credential short-circuits executeRequest. -/
theorem executeRequestWith_no_key (mode : ToolExecutionMode) (backend : Backend)
    (run : ToolRunner) (request : ProviderRequest)
    (hkey : apiKeyMissing request = true) :
    executeRequestWith mode backend run request =
      { result := Except.error "API key is required for OpenAI"
        completions := 0, iterations := 0, execLog := [], received := [] } := by
  unfold executeRequestWith
  rw [hkey]
  simp

/-- A parse failure in the first completion's toolCalls extraction throws
out of executeRequest after the single initial completion. -/
theorem executeRequestWith_extract_error (mode : ToolExecutionMode) (backend : Backend)
    (run : ToolRunner) (request : ProviderRequest) (e : String)
    (hkey : apiKeyMissing request = false)
    (hext : extractToolCalls (initialLoopState backend request).toolCallsInResponse
      = Except.error e) :
    executeRequestWith mode backend run request =
      { result := Except.error e
        completions := 1, iterations := 0, execLog := []
        received := (initialLoopState backend request).received } := by
  unfold executeRequestWith
  rw [hkey]
  simp only [Bool.false_eq_true, if_false, hext]

/-- Parameters-only mode, or an empty toolCalls extraction, returns the
immediate outcome. -/
theorem executeRequestWith_immediate (mode : ToolExecutionMode) (backend : Backend)
    (run : ToolRunner) (request : ProviderRequest) (tcs : List NamedToolCall)
    (hkey : apiKeyMissing request = false)
    (hext : extractToolCalls (initialLoopState backend request).toolCallsInResponse
      = Except.ok tcs)
    (hcond : mode = ToolExecutionMode.parametersOnly ∨ tcs.length = 0) :
    executeRequestWith mode backend run request
      = immediateOutcome backend request tcs := by
  unfold executeRequestWith
  rw [hkey]
  simp only [Bool.false_eq_true, if_false, hext]
  rw [if_pos hcond]

/-- Sync mode with a non-empty toolCalls extraction runs the loop. -/
theorem executeRequestWith_sync_loop (backend : Backend) (run : ToolRunner)
    (request : ProviderRequest) (tcs : List NamedToolCall)
    (hkey : apiKeyMissing request = false)
    (hext : extractToolCalls (initialLoopState backend request).toolCallsInResponse
      = Except.ok tcs)
    (hlen : tcs.length ≠ 0) :
    executeRequestWith ToolExecutionMode.sync backend run request
      = loopOutcome backend run request tcs := by
  unfold executeRequestWith
  rw [hkey]
  simp only [Bool.false_eq_true, if_false, hext]
  rw [if_neg]
  rintro (hm | hl)
  · cases hm
  · exact hlen hl

/-- C8: for every request whose API key is missing, executeRequest fails
immediately with the fatal error of line 18 and performs zero completion
invocations, in either execution mode. -/
theorem C8_missing_credential (mode : ToolExecutionMode) (backend : Backend)
    (run : ToolRunner) (request : ProviderRequest) (h : request.apiKey = none) :
    (executeRequestWith mode backend run request).result
        = Except.error "API key is required for OpenAI" ∧
      (executeRequestWith mode backend run request).completions = 0 := by
  have hm : apiKeyMissing request = true := by simp [apiKeyMissing, h]
  rw [executeRequestWith_no_key mode backend run request hm]
  exact ⟨rfl, rfl⟩

/-- Witness for C8 at the concrete key-less request. -/
theorem C8_missing_credential_witness :
    (executeRequestWith ToolExecutionMode.sync backendPlain runnerOk reqNoKey).result
        = Except.error "API key is required for OpenAI" ∧
      (executeRequestWith ToolExecutionMode.sync backendPlain runnerOk reqNoKey).completions = 0 :=
  C8_missing_credential ToolExecutionMode.sync backendPlain runnerOk reqNoKey rfl

/-- C9: when the request's tool set is absent or empty the payload has no
tools field and no tool_choice; when a non-empty tool set is supplied the
payload carries exactly its translation together with tool_choice auto. -/
theorem C9_tools_omitted_iff (request : ProviderRequest) :
    ((request.tools = none ∨ request.tools = some []) →
      (buildPayload request).tools = none ∧ (buildPayload request).tool_choice = none) ∧
    (∀ l, request.tools = some l → l ≠ [] →
      (buildPayload request).tools = some (l.map translateTool) ∧
        (buildPayload request).tool_choice = some "auto") := by
  constructor
  · rintro (h | h) <;> simp [buildPayload, translateTools, h]
  · intro l h hne
    have hlen : l.length ≠ 0 := by simpa using hne
    simp [buildPayload, translateTools, h, hlen]

/-- Witness for C9: the absent-tools request and the one-tool request. -/
theorem C9_tools_omitted_iff_witness :
    ((buildPayload reqNoTools).tools = none ∧ (buildPayload reqNoTools).tool_choice = none) ∧
    ((buildPayload reqBasic).tools = some ([toolAdd].map translateTool) ∧
      (buildPayload reqBasic).tool_choice = some "auto") :=
  ⟨(C9_tools_omitted_iff reqNoTools).1 (Or.inl rfl),
   (C9_tools_omitted_iff reqBasic).2 [toolAdd] rfl (by simp)⟩

/-- C3: in parameters-only mode, whatever the backend requests, a request
with a credential performs exactly one completion invocation, runs no loop
iteration and executes no tool, and a returned response carries no
toolResults. -/
theorem C3_parameters_only (backend : Backend) (run : ToolRunner)
    (request : ProviderRequest) (h : apiKeyMissing request = false) :
    (executeRequestWith ToolExecutionMode.parametersOnly backend run request).completions = 1 ∧
    (executeRequestWith ToolExecutionMode.parametersOnly backend run request).iterations = 0 ∧
    (executeRequestWith ToolExecutionMode.parametersOnly backend run request).execLog = [] ∧
    (∀ r, (executeRequestWith ToolExecutionMode.parametersOnly backend run request).result
        = Except.ok r → r.toolResults = none) := by
  cases hext : extractToolCalls (initialLoopState backend request).toolCallsInResponse with
  | error e =>
    rw [executeRequestWith_extract_error ToolExecutionMode.parametersOnly
      backend run request e h hext]
    refine ⟨rfl, rfl, rfl, ?_⟩
    intro r hr
    simp at hr
  | ok tcs =>
    rw [executeRequestWith_immediate ToolExecutionMode.parametersOnly
      backend run request tcs h hext (Or.inl rfl)]
    refine ⟨rfl, rfl, rfl, ?_⟩
    intro r hr
    cases hr
    rfl

/-- Witness for C3 at a backend whose completion requests a tool call. -/
theorem C3_parameters_only_witness :
    (executeRequestWith ToolExecutionMode.parametersOnly backendAlwaysCalls runnerOk reqBasic).completions = 1 ∧
    (executeRequestWith ToolExecutionMode.parametersOnly backendAlwaysCalls runnerOk reqBasic).iterations = 0 ∧
    (executeRequestWith ToolExecutionMode.parametersOnly backendAlwaysCalls runnerOk reqBasic).execLog = [] ∧
    respParamsOnly.toolResults = none :=
  have h := C3_parameters_only backendAlwaysCalls runnerOk reqBasic rfl
  ⟨h.1, h.2.1, h.2.2.1, h.2.2.2 respParamsOnly rfl⟩

/-- C2: the execution mode is the hardcoded constant, so for every input
the shipped executeRequest runs zero loop iterations, invokes no tool,
performs at most one completion — exactly one as soon as the credential
is present — and a returned response never carries toolResults. -/
theorem C2_mode_hardcoded (backend : Backend) (run : ToolRunner)
    (request : ProviderRequest) :
    (executeRequest backend run request).iterations = 0 ∧
    (executeRequest backend run request).execLog = [] ∧
    (executeRequest backend run request).completions ≤ 1 ∧
    (apiKeyMissing request = false → (executeRequest backend run request).completions = 1) ∧
    (∀ r, (executeRequest backend run request).result = Except.ok r →
      r.toolResults = none) := by
  unfold executeRequest toolExecutionMode
  by_cases hk : apiKeyMissing request = true
  · rw [executeRequestWith_no_key ToolExecutionMode.parametersOnly backend run request hk]
    refine ⟨rfl, rfl, by norm_num, ?_, ?_⟩
    · intro hfalse
      rw [hk] at hfalse
      cases hfalse
    · intro r hr
      simp at hr
  · have hk2 : apiKeyMissing request = false := by simpa using hk
    cases hext : extractToolCalls (initialLoopState backend request).toolCallsInResponse with
    | error e =>
      rw [executeRequestWith_extract_error ToolExecutionMode.parametersOnly
        backend run request e hk2 hext]
      refine ⟨rfl, rfl, Nat.le_refl 1, fun _ => rfl, ?_⟩
      intro r hr
      simp at hr
    | ok tcs =>
      rw [executeRequestWith_immediate ToolExecutionMode.parametersOnly
        backend run request tcs hk2 hext (Or.inl rfl)]
      refine ⟨rfl, rfl, Nat.le_refl 1, fun _ => rfl, ?_⟩
      intro r hr
      cases hr
      rfl

/-- Witness for C2: the shipped provider at a backend that requests tool
calls still performs one completion, zero iterations, no tool runs. -/
theorem C2_mode_hardcoded_witness :
    (executeRequest backendAlwaysCalls runnerOk reqBasic).iterations = 0 ∧
    (executeRequest backendAlwaysCalls runnerOk reqBasic).execLog = [] ∧
    (executeRequest backendAlwaysCalls runnerOk reqBasic).completions ≤ 1 ∧
    (executeRequest backendAlwaysCalls runnerOk reqBasic).completions = 1 ∧
    respParamsOnly.toolResults = none :=
  have h := C2_mode_hardcoded backendAlwaysCalls runnerOk reqBasic
  ⟨h.1, h.2.1, h.2.2.1, h.2.2.2.1 rfl, h.2.2.2.2 respParamsOnly rfl⟩

/-- One loop iteration increments the iteration counter by one. -/
theorem loopIteration_iterationCount (backend : Backend) (run : ToolRunner)
    (request : ProviderRequest) (payload : Payload) (st : LoopState)
    (calls : List ToolCallRequest) :
    (loopIteration backend run request payload st calls).iterationCount
      = st.iterationCount + 1 := rfl

/-- One loop iteration performs exactly one backend invocation. -/
theorem loopIteration_invocations (backend : Backend) (run : ToolRunner)
    (request : ProviderRequest) (payload : Payload) (st : LoopState)
    (calls : List ToolCallRequest) :
    (loopIteration backend run request payload st calls).invocations
      = st.invocations + 1 := rfl

/-- Unfolding of the loop when tool calls are pending. -/
theorem runLoop_succ_cons (backend : Backend) (run : ToolRunner)
    (request : ProviderRequest) (payload : Payload) (n : Nat) (st : LoopState)
    (c : ToolCallRequest) (cs : List ToolCallRequest)
    (hcalls : st.toolCallsInResponse = some (c :: cs)) :
    runLoop backend run request payload (n + 1) st
      = runLoop backend run request payload n
          (loopIteration backend run request payload st (c :: cs)) := by
  simp [runLoop, hcalls]

/-- Unfolding of the loop at the break cases. -/
theorem runLoop_break (backend : Backend) (run : ToolRunner)
    (request : ProviderRequest) (payload : Payload) (n : Nat) (st : LoopState)
    (h : st.toolCallsInResponse = none ∨ st.toolCallsInResponse = some []) :
    runLoop backend run request payload (n + 1) st = st := by
  rcases h with h | h <;> simp [runLoop, h]

/-- The loop runs some `k ≤ fuel` iterations, incrementing the iteration
counter and the invocation counter in lockstep. -/
theorem runLoop_counts (backend : Backend) (run : ToolRunner)
    (request : ProviderRequest) (payload : Payload) :
    ∀ (fuel : Nat) (st : LoopState), ∃ k, k ≤ fuel ∧
      (runLoop backend run request payload fuel st).iterationCount
        = st.iterationCount + k ∧
      (runLoop backend run request payload fuel st).invocations
        = st.invocations + k := by
  intro fuel
  induction fuel with
  | zero => intro st; exact ⟨0, Nat.le_refl 0, rfl, rfl⟩
  | succ n ih =>
    intro st
    cases hcalls : st.toolCallsInResponse with
    | none =>
      rw [runLoop_break backend run request payload n st (Or.inl hcalls)]
      exact ⟨0, Nat.zero_le _, rfl, rfl⟩
    | some calls =>
      cases calls with
      | nil =>
        rw [runLoop_break backend run request payload n st (Or.inr hcalls)]
        exact ⟨0, Nat.zero_le _, rfl, rfl⟩
      | cons c cs =>
        obtain ⟨k, hkle, h1, h2⟩ :=
          ih (loopIteration backend run request payload st (c :: cs))
        rw [runLoop_succ_cons backend run request payload n st c cs hcalls]
        refine ⟨k + 1, Nat.succ_le_succ hkle, ?_, ?_⟩
        · rw [h1, loopIteration_iterationCount]
          omega
        · rw [h2, loopIteration_invocations]
          omega

/-- C4: in sync mode, with a credential present, the loop iterations
actually run never exceed the cap of 10, completions performed are
exactly one more than iterations run, and reaching the cap still ends
with a normal (ok) response rather than an error. -/
theorem C4_sync_cap (backend : Backend) (run : ToolRunner)
    (request : ProviderRequest) (h : apiKeyMissing request = false) :
    (executeRequestWith ToolExecutionMode.sync backend run request).iterations
        ≤ MAX_ITERATIONS ∧
    (executeRequestWith ToolExecutionMode.sync backend run request).completions
        = 1 + (executeRequestWith ToolExecutionMode.sync backend run request).iterations ∧
    ((executeRequestWith ToolExecutionMode.sync backend run request).iterations
        = MAX_ITERATIONS →
      ∃ r, (executeRequestWith ToolExecutionMode.sync backend run request).result
        = Except.ok r) := by
  cases hext : extractToolCalls (initialLoopState backend request).toolCallsInResponse with
  | error e =>
    rw [executeRequestWith_extract_error ToolExecutionMode.sync backend run request e h hext]
    refine ⟨by norm_num [MAX_ITERATIONS], rfl, ?_⟩
    intro h10
    simp [MAX_ITERATIONS] at h10
  | ok tcs =>
    by_cases hlen : tcs.length = 0
    · rw [executeRequestWith_immediate ToolExecutionMode.sync
        backend run request tcs h hext (Or.inr hlen)]
      refine ⟨by norm_num [MAX_ITERATIONS, immediateOutcome], rfl, ?_⟩
      intro h10
      simp [MAX_ITERATIONS, immediateOutcome] at h10
    · rw [executeRequestWith_sync_loop backend run request tcs h hext hlen]
      obtain ⟨k, hkle, h1, h2⟩ := runLoop_counts backend run request
        (buildPayload request) MAX_ITERATIONS (initialLoopState backend request)
      simp only [loopOutcome]
      refine ⟨?_, ?_, fun _ => ⟨_, rfl⟩⟩
      · rw [h1]
        show 0 + k ≤ MAX_ITERATIONS
        omega
      · rw [h1, h2]
        show 1 + k = 1 + (0 + k)
        omega

/-- Witness for C4: a backend whose every completion requests a tool call
drives the loop to the cap: the theorem instance plus the concrete cap
values. -/
theorem C4_sync_cap_witness :
    (executeRequestWith ToolExecutionMode.sync backendAlwaysCalls runnerOk reqBasic).iterations
        ≤ MAX_ITERATIONS ∧
    (executeRequestWith ToolExecutionMode.sync backendAlwaysCalls runnerOk reqBasic).completions
        = 1 + (executeRequestWith ToolExecutionMode.sync backendAlwaysCalls runnerOk reqBasic).iterations ∧
    (∃ r, (executeRequestWith ToolExecutionMode.sync backendAlwaysCalls runnerOk reqBasic).result
        = Except.ok r) :=
  have h := C4_sync_cap backendAlwaysCalls runnerOk reqBasic rfl
  ⟨h.1, h.2.1, h.2.2 rfl⟩

/-- One loop iteration adds exactly the new completion's contribution to
each running count. -/
theorem loopIteration_tokens (backend : Backend) (run : ToolRunner)
    (request : ProviderRequest) (payload : Payload) (st : LoopState)
    (calls : List ToolCallRequest) :
    (loopIteration backend run request payload st calls).tokens.prompt
        = st.tokens.prompt
          + (usageContribution (iterResponse backend run request payload st calls)).prompt ∧
    (loopIteration backend run request payload st calls).tokens.completion
        = st.tokens.completion
          + (usageContribution (iterResponse backend run request payload st calls)).completion ∧
    (loopIteration backend run request payload st calls).tokens.total
        = st.tokens.total
          + (usageContribution (iterResponse backend run request payload st calls)).total := by
  unfold loopIteration
  cases hu : (iterResponse backend run request payload st calls).usage with
  | none => simp [usageContribution, hu]
  | some u => simp [usageContribution, hu]

/-- One loop iteration records exactly the completion it received. -/
theorem loopIteration_received (backend : Backend) (run : ToolRunner)
    (request : ProviderRequest) (payload : Payload) (st : LoopState)
    (calls : List ToolCallRequest) :
    (loopIteration backend run request payload st calls).received
      = st.received ++ [iterResponse backend run request payload st calls] := rfl

/-- One loop iteration preserves the token-accounting invariant. -/
theorem loopIteration_tokensInvariant (backend : Backend) (run : ToolRunner)
    (request : ProviderRequest) (payload : Payload) (st : LoopState)
    (calls : List ToolCallRequest) (h : tokensInvariant st) :
    tokensInvariant (loopIteration backend run request payload st calls) := by
  obtain ⟨h1, h2, h3, h4⟩ := h
  obtain ⟨t1, t2, t3⟩ := loopIteration_tokens backend run request payload st calls
  refine ⟨?_, ?_, ?_, ?_⟩
  · rw [t1, h1, loopIteration_received]
    simp
  · rw [t2, h2, loopIteration_received]
    simp
  · rw [t3, h3, loopIteration_received]
    simp
  · rw [loopIteration_received, loopIteration_invocations]
    simp [h4]

/-- The loop preserves the token-accounting invariant. -/
theorem runLoop_tokensInvariant (backend : Backend) (run : ToolRunner)
    (request : ProviderRequest) (payload : Payload) :
    ∀ (fuel : Nat) (st : LoopState), tokensInvariant st →
      tokensInvariant (runLoop backend run request payload fuel st) := by
  intro fuel
  induction fuel with
  | zero => intro st h; exact h
  | succ n ih =>
    intro st h
    cases hcalls : st.toolCallsInResponse with
    | none =>
      rw [runLoop_break backend run request payload n st (Or.inl hcalls)]
      exact h
    | some calls =>
      cases calls with
      | nil =>
        rw [runLoop_break backend run request payload n st (Or.inr hcalls)]
        exact h
      | cons c cs =>
        rw [runLoop_succ_cons backend run request payload n st c cs hcalls]
        exact ih _ (loopIteration_tokensInvariant backend run request payload st (c :: cs) h)

/-- The running token counts never decrease across loop iterations. -/
theorem runLoop_tokens_monotone (backend : Backend) (run : ToolRunner)
    (request : ProviderRequest) (payload : Payload) :
    ∀ (fuel : Nat) (st : LoopState),
      st.tokens.prompt ≤ (runLoop backend run request payload fuel st).tokens.prompt ∧
      st.tokens.completion ≤ (runLoop backend run request payload fuel st).tokens.completion ∧
      st.tokens.total ≤ (runLoop backend run request payload fuel st).tokens.total := by
  intro fuel
  induction fuel with
  | zero => intro st; exact ⟨Nat.le_refl _, Nat.le_refl _, Nat.le_refl _⟩
  | succ n ih =>
    intro st
    cases hcalls : st.toolCallsInResponse with
    | none =>
      rw [runLoop_break backend run request payload n st (Or.inl hcalls)]
      exact ⟨Nat.le_refl _, Nat.le_refl _, Nat.le_refl _⟩
    | some calls =>
      cases calls with
      | nil =>
        rw [runLoop_break backend run request payload n st (Or.inr hcalls)]
        exact ⟨Nat.le_refl _, Nat.le_refl _, Nat.le_refl _⟩
      | cons c cs =>
        rw [runLoop_succ_cons backend run request payload n st c cs hcalls]
        obtain ⟨m1, m2, m3⟩ := ih (loopIteration backend run request payload st (c :: cs))
        obtain ⟨t1, t2, t3⟩ := loopIteration_tokens backend run request payload st (c :: cs)
        refine ⟨?_, ?_, ?_⟩
        · exact Nat.le_trans (Nat.le_add_right _ _) (t1 ▸ m1)
        · exact Nat.le_trans (Nat.le_add_right _ _) (t2 ▸ m2)
        · exact Nat.le_trans (Nat.le_add_right _ _) (t3 ▸ m3)

/-- The state right after the initial completion satisfies the
token-accounting invariant. -/
theorem initialLoopState_tokensInvariant (backend : Backend) (request : ProviderRequest) :
    tokensInvariant (initialLoopState backend request) := by
  refine ⟨?_, ?_, ?_, rfl⟩ <;> simp [initialLoopState, tokensInvariant, usageContribution]

/-- C5: each component of the returned TokenUsage is the exact sum of
that component over the completions received from every backend
invocation performed (one completion recorded per invocation), each
component counting 0 when absent; and the running counts never decrease
across loop iterations. -/
theorem C5_token_sum (mode : ToolExecutionMode) (backend : Backend) (run : ToolRunner)
    (request : ProviderRequest) :
    (∀ r, (executeRequestWith mode backend run request).result = Except.ok r →
      r.tokens.prompt
          = ((executeRequestWith mode backend run request).received.map
              (fun c => (usageContribution c).prompt)).sum ∧
      r.tokens.completion
          = ((executeRequestWith mode backend run request).received.map
              (fun c => (usageContribution c).completion)).sum ∧
      r.tokens.total
          = ((executeRequestWith mode backend run request).received.map
              (fun c => (usageContribution c).total)).sum ∧
      (executeRequestWith mode backend run request).received.length
          = (executeRequestWith mode backend run request).completions) ∧
    (∀ (payload : Payload) (fuel : Nat) (st : LoopState),
      st.tokens.prompt ≤ (runLoop backend run request payload fuel st).tokens.prompt ∧
      st.tokens.completion ≤ (runLoop backend run request payload fuel st).tokens.completion ∧
      st.tokens.total ≤ (runLoop backend run request payload fuel st).tokens.total) := by
  refine ⟨?_, fun payload fuel st => runLoop_tokens_monotone backend run request payload fuel st⟩
  by_cases hk : apiKeyMissing request = true
  · rw [executeRequestWith_no_key mode backend run request hk]
    intro r hr
    simp at hr
  · have hk2 : apiKeyMissing request = false := by simpa using hk
    cases hext : extractToolCalls (initialLoopState backend request).toolCallsInResponse with
    | error e =>
      rw [executeRequestWith_extract_error mode backend run request e hk2 hext]
      intro r hr
      simp at hr
    | ok tcs =>
      have hinit := initialLoopState_tokensInvariant backend request
      by_cases hcond : mode = ToolExecutionMode.parametersOnly ∨ tcs.length = 0
      · rw [executeRequestWith_immediate mode backend run request tcs hk2 hext hcond]
        intro r hr
        cases hr
        exact hinit
      · have hmode : mode = ToolExecutionMode.sync := by
          cases mode with
          | parametersOnly => exact absurd (Or.inl rfl) hcond
          | sync => rfl
        have hlen : tcs.length ≠ 0 := fun hl => hcond (Or.inr hl)
        subst hmode
        rw [executeRequestWith_sync_loop backend run request tcs hk2 hext hlen]
        have hfin := runLoop_tokensInvariant backend run request (buildPayload request)
          MAX_ITERATIONS (initialLoopState backend request) hinit
        simp only [loopOutcome]
        intro r hr
        cases hr
        exact hfin

/-- Witness for C5 at a concrete backend reporting usage 10/5/15. -/
theorem C5_token_sum_witness :
    respPlain.tokens.prompt
        = ((executeRequestWith ToolExecutionMode.parametersOnly backendPlain runnerOk reqBasic).received.map
            (fun c => (usageContribution c).prompt)).sum ∧
    respPlain.tokens.completion
        = ((executeRequestWith ToolExecutionMode.parametersOnly backendPlain runnerOk reqBasic).received.map
            (fun c => (usageContribution c).completion)).sum ∧
    respPlain.tokens.total
        = ((executeRequestWith ToolExecutionMode.parametersOnly backendPlain runnerOk reqBasic).received.map
            (fun c => (usageContribution c).total)).sum ∧
    (executeRequestWith ToolExecutionMode.parametersOnly backendPlain runnerOk reqBasic).received.length
        = (executeRequestWith ToolExecutionMode.parametersOnly backendPlain runnerOk reqBasic).completions :=
  (C5_token_sum ToolExecutionMode.parametersOnly backendPlain runnerOk reqBasic).1 respPlain rfl

/-- When every raw payload in a list of tool calls parses, the throwing
map succeeds and yields name plus parsed arguments, in order. -/
theorem extractToolCallsList_ok (l : List ToolCallRequest)
    (h : ∀ tc ∈ l, (jsonParse tc.function.arguments).isSome = true) :
    extractToolCallsList l = Except.ok (l.map fun tc =>
      { name := tc.function.name
        arguments := (jsonParse tc.function.arguments).getD [] }) := by
  induction l with
  | nil => rfl
  | cons tc rest ih =>
    have htc := h tc (by simp)
    obtain ⟨args, hargs⟩ := Option.isSome_iff_exists.mp htc
    have hrest := ih (fun x hx => h x (by simp [hx]))
    simp [extractToolCallsList, hargs, hrest]

/-- C6: the returned toolCalls are exactly the first completion's
requested calls (name and parsed arguments), omitted when the first
completion requested none — independent of what later completions
request. -/
theorem C6_toolCalls_first_completion (mode : ToolExecutionMode) (backend : Backend)
    (run : ToolRunner) (request : ProviderRequest)
    (hkey : apiKeyMissing request = false) :
    (∀ calls, (initialLoopState backend request).toolCallsInResponse = some calls →
      (∀ tc ∈ calls, (jsonParse tc.function.arguments).isSome = true) →
      ∀ r, (executeRequestWith mode backend run request).result = Except.ok r →
        r.toolCalls = (if calls = [] then none else some (calls.map fun tc =>
          { name := tc.function.name
            arguments := (jsonParse tc.function.arguments).getD [] }))) ∧
    ((initialLoopState backend request).toolCallsInResponse = none →
      ∀ r, (executeRequestWith mode backend run request).result = Except.ok r →
        r.toolCalls = none) := by
  constructor
  · intro calls hcalls hparse r hr
    have hext : extractToolCalls (initialLoopState backend request).toolCallsInResponse
        = Except.ok (calls.map fun tc =>
          ({ name := tc.function.name
             arguments := (jsonParse tc.function.arguments).getD [] } : NamedToolCall)) := by
      rw [hcalls]
      exact extractToolCallsList_ok calls hparse
    by_cases hcond : mode = ToolExecutionMode.parametersOnly ∨
        (calls.map fun tc =>
          ({ name := tc.function.name
             arguments := (jsonParse tc.function.arguments).getD [] } : NamedToolCall)).length = 0
    · rw [executeRequestWith_immediate mode backend run request _ hkey hext hcond] at hr
      simp only [immediateOutcome] at hr
      cases hr
      by_cases hnil : calls = []
      · subst hnil
        simp
      · have hpos : 0 < (calls.map fun tc =>
            ({ name := tc.function.name
               arguments := (jsonParse tc.function.arguments).getD [] } : NamedToolCall)).length := by
          simp [List.length_pos, hnil]
        simp [hnil, hpos]
    · have hmode : mode = ToolExecutionMode.sync := by
        cases mode with
        | parametersOnly => exact absurd (Or.inl rfl) hcond
        | sync => rfl
      have hlen : (calls.map fun tc =>
          ({ name := tc.function.name
             arguments := (jsonParse tc.function.arguments).getD [] } : NamedToolCall)).length ≠ 0 :=
        fun hl => hcond (Or.inr hl)
      subst hmode
      rw [executeRequestWith_sync_loop backend run request _ hkey hext hlen] at hr
      simp only [loopOutcome] at hr
      cases hr
      have hnil : ¬ calls = [] := by
        intro hed
        subst hed
        simp at hlen
      have hpos : 0 < (calls.map fun tc =>
          ({ name := tc.function.name
             arguments := (jsonParse tc.function.arguments).getD [] } : NamedToolCall)).length :=
        Nat.pos_of_ne_zero hlen
      simp [hnil, hpos]
  · intro hnone r hr
    have hext : extractToolCalls (initialLoopState backend request).toolCallsInResponse
        = Except.ok [] := by
      rw [hnone]
      rfl
    rw [executeRequestWith_immediate mode backend run request [] hkey hext (Or.inr rfl)] at hr
    simp only [immediateOutcome] at hr
    cases hr
    rfl

/-- Witness for C6: a sync run whose second completion requests a
different tool still reports only the first completion's call. -/
theorem C6_toolCalls_first_completion_witness :
    respSwitching.toolCalls = (if ([callAdd] : List ToolCallRequest) = [] then none
      else some ([callAdd].map fun tc =>
        { name := tc.function.name
          arguments := (jsonParse tc.function.arguments).getD [] })) :=
  (C6_toolCalls_first_completion ToolExecutionMode.sync backendSwitching runnerOk reqBasic
    rfl).1 [callAdd] rfl (by decide) respSwitching rfl

/-- Lookup misses a list none of whose keys is the looked-up key. -/
theorem lookup_eq_none (l : Obj) (k : String) (h : ∀ p ∈ l, p.1 ≠ k) :
    lookupObj l k = none := by
  induction l with
  | nil => rfl
  | cons p rest ih =>
    have hp : p.1 ≠ k := h p (by simp)
    have hrest := ih (fun q hq => h q (by simp [hq]))
    simp [lookupObj, hp, hrest]

/-- Overwriting the value at a present key makes lookup at that key find
the new value. -/
theorem lookup_map_update_self (a : Obj) (k : String) (v : Value)
    (h : a.any (fun p => p.1 = k) = true) :
    lookupObj (a.map fun p => if p.1 = k then (k, v) else p) k = some v := by
  induction a with
  | nil => simp at h
  | cons p rest ih =>
    by_cases hp : p.1 = k
    · simp [lookupObj, hp]
    · have h2 : rest.any (fun p => p.1 = k) = true := by
        simp only [List.any_cons, Bool.or_eq_true, decide_eq_true_eq] at h
        rcases h with h | h
        · exact absurd h hp
        · exact h
      simp [lookupObj, hp, ih h2]

/-- Overwriting the value at one key leaves lookup at other keys
unchanged. -/
theorem lookup_map_update_ne (a : Obj) (k : String) (v : Value) (k2 : String)
    (hne : k2 ≠ k) :
    lookupObj (a.map fun p => if p.1 = k then (k, v) else p) k2 = lookupObj a k2 := by
  induction a with
  | nil => rfl
  | cons p rest ih =>
    by_cases hp : p.1 = k
    · simp [lookupObj, hp, Ne.symm hne, ih]
    · by_cases h2 : p.1 = k2 <;> simp [lookupObj, hp, h2, hne, ih]

/-- Lookup over an append tries the left list first. -/
theorem lookup_append_obj (a b : Obj) (k : String) :
    lookupObj (a ++ b) k = ((lookupObj a k).orElse fun _ => lookupObj b k) := by
  induction a with
  | nil => simp [lookupObj, Option.orElse]
  | cons p rest ih =>
    by_cases h2 : p.1 = k <;> simp [lookupObj, h2, ih, Option.orElse]

/-- Lookup after a single spread update: the updated key finds the new
value, every other key is unchanged. -/
theorem lookup_insertPair (a : Obj) (k : String) (v : Value) (k2 : String) :
    lookupObj (insertPair a k v) k2 = if k2 = k then some v else lookupObj a k2 := by
  unfold insertPair
  by_cases hany : a.any (fun p => p.1 = k) = true
  · rw [if_pos hany]
    by_cases h2 : k2 = k
    · rw [if_pos h2, h2, lookup_map_update_self a k v hany]
    · rw [if_neg h2, lookup_map_update_ne a k v k2 h2]
  · rw [if_neg hany]
    have hnot : ∀ p ∈ a, p.1 ≠ k := by
      intro p hp hpk
      exact hany (List.any_eq_true.mpr ⟨p, hp, by simp [hpk]⟩)
    by_cases h2 : k2 = k
    · rw [if_pos h2, h2, lookup_append_obj, lookup_eq_none a k hnot]
      simp [lookupObj, Option.orElse]
    · rw [if_neg h2, lookup_append_obj]
      cases hval : lookupObj a k2 <;> simp [lookupObj, Ne.symm h2, Option.orElse]

/-- C7: the JS spread of defaults then model arguments resolves every key
to the model-supplied value when present, falling back to the default —
and this merged object is exactly what the per-call handler passes to the
tool-execution capability. -/
theorem C7_merged_args (a b : Obj) (k : String) (hb : (b.map Prod.fst).Nodup) :
    (lookupObj (spreadMerge a b) k = ((lookupObj b k).orElse fun _ => lookupObj a k)) ∧
    (∀ (tools : Option (List Tool)) (run : ToolRunner) (st : BatchState)
      (toolCall : ToolCallRequest) (tool : Tool),
      (tools.getD []).find? (fun t => t.id = toolCall.function.name) = some tool →
      jsonParse toolCall.function.arguments = some b →
      (processToolCall tools run st toolCall).execLog
        = st.execLog ++ [(toolCall.function.name, spreadMerge tool.params b)]) := by
  constructor
  · induction b generalizing a with
    | nil => simp [spreadMerge, lookupObj, Option.orElse]
    | cons p rest ih =>
      have hb2 := hb
      rw [List.map_cons, List.nodup_cons] at hb2
      obtain ⟨hmem, hnd⟩ := hb2
      have hstep : spreadMerge a (p :: rest) = spreadMerge (insertPair a p.1 p.2) rest := rfl
      rw [hstep, ih (insertPair a p.1 p.2) hnd]
      by_cases h2 : k = p.1
      · have hrest_none : lookupObj rest p.1 = none := by
          refine lookup_eq_none rest p.1 ?_
          intro q hq hqk
          exact hmem (List.mem_map.mpr ⟨q, hq, hqk⟩)
        simp [lookup_insertPair, hrest_none, h2, lookupObj, Option.orElse]
      · simp [lookup_insertPair, h2, Ne.symm h2, lookupObj, Option.orElse]
  · intro tools run st toolCall tool hfind hparse
    by_cases hs : (run toolCall.function.name (spreadMerge tool.params b) true).success
      <;> simp [processToolCall, hparse, hfind, hs]

/-- Witness for C7 at defaults x = 1, y = 2 and model argument y = 9. -/
theorem C7_merged_args_witness :
    (lookupObj (spreadMerge [("x", Value.vNum 1), ("y", Value.vNum 2)] [("y", Value.vNum 9)]) "y"
        = ((lookupObj [("y", Value.vNum 9)] "y").orElse
            fun _ => lookupObj [("x", Value.vNum 1), ("y", Value.vNum 2)] "y")) ∧
    ((processToolCall (some [toolAdd]) runnerOk
        { currentMessages := [], toolResults := [], execLog := [] } callAdd).execLog
      = [] ++ [("add", spreadMerge toolAdd.params [("y", Value.vNum 9)])]) :=
  ⟨(C7_merged_args [("x", Value.vNum 1), ("y", Value.vNum 2)] [("y", Value.vNum 9)]
      "y" (by decide)).1,
   (C7_merged_args [("x", Value.vNum 1), ("y", Value.vNum 2)] [("y", Value.vNum 9)]
      "y" (by decide)).2 (some [toolAdd]) runnerOk
      { currentMessages := [], toolResults := [], execLog := [] } callAdd toolAdd rfl rfl⟩

/-- C10: the per-call handler of the sync loop appends exactly two
conversation entries for a successfully executed tool call — first the
assistant call-record, then the tool result-record, both keyed by the
call's id — and appends zero entries for a call skipped because the tool
name is unknown or the executor reported failure. -/
theorem C10_conversation_growth (tools : Option (List Tool)) (run : ToolRunner)
    (st : BatchState) (toolCall : ToolCallRequest) :
    (∀ args tool,
      jsonParse toolCall.function.arguments = some args →
      (tools.getD []).find? (fun t => t.id = toolCall.function.name) = some tool →
      (run toolCall.function.name (spreadMerge tool.params args) true).success = true →
      (processToolCall tools run st toolCall).currentMessages
        = st.currentMessages ++
          [Message.assistantToolCall toolCall.id toolCall.function.name
            toolCall.function.arguments,
           Message.toolResultMsg toolCall.id
            (run toolCall.function.name (spreadMerge tool.params args) true).output]) ∧
    (jsonParse toolCall.function.arguments ≠ none →
      (tools.getD []).find? (fun t => t.id = toolCall.function.name) = none →
      (processToolCall tools run st toolCall).currentMessages = st.currentMessages) ∧
    (∀ args tool,
      jsonParse toolCall.function.arguments = some args →
      (tools.getD []).find? (fun t => t.id = toolCall.function.name) = some tool →
      (run toolCall.function.name (spreadMerge tool.params args) true).success = false →
      (processToolCall tools run st toolCall).currentMessages = st.currentMessages) := by
  refine ⟨?_, ?_, ?_⟩
  · intro args tool hparse hfind hsuccess
    simp [processToolCall, hparse, hfind, hsuccess]
  · intro hparse hfind
    obtain ⟨args, hargs⟩ := Option.ne_none_iff_exists.mp hparse
    simp [processToolCall, ← hargs, hfind]
  · intro args tool hparse hfind hfail
    simp [processToolCall, hparse, hfind, hfail]

/-- Witness for C10: an executed call appends its two records, an
unknown-tool call appends nothing. -/
theorem C10_conversation_growth_witness :
    ((processToolCall (some [toolAdd]) runnerOk
        { currentMessages := [], toolResults := [], execLog := [] } callAdd).currentMessages
      = [] ++
        [Message.assistantToolCall callAdd.id callAdd.function.name
          callAdd.function.arguments,
         Message.toolResultMsg callAdd.id
          (runnerOk callAdd.function.name
            (spreadMerge toolAdd.params [("y", Value.vNum 9)]) true).output]) ∧
    ((processToolCall (some [toolAdd]) runnerOk
        { currentMessages := [], toolResults := [], execLog := [] } callOther).currentMessages
      = []) :=
  ⟨(C10_conversation_growth (some [toolAdd]) runnerOk
      { currentMessages := [], toolResults := [], execLog := [] } callAdd).1
      [("y", Value.vNum 9)] toolAdd rfl rfl rfl,
   (C10_conversation_growth (some [toolAdd]) runnerOk
      { currentMessages := [], toolResults := [], execLog := [] } callOther).2.1
      (by simp [jsonParse, callOther]) rfl⟩

/-- C1 counterexample: a request whose first completion carries one tool
call with an unparseable argument payload is aborted — executeRequest
surfaces the JSON parse error instead of silently dropping the call. -/
theorem C1_counterexample :
    (executeRequest backendBad runnerOk reqBasic).result
      = Except.error "Unexpected token in JSON" := rfl

/-- C1 amended: a tool call whose raw payload does not parse and that is
processed by the sync loop's per-call handler is dropped at single-call
granularity — conversation state and results are untouched and the rest
of the batch proceeds exactly as if the call were absent; however (see
the counterexample) an unparseable payload among the first completion's
tool calls aborts the whole request during toolCalls extraction. -/
theorem C1_loop_parse_drop (tools : Option (List Tool)) (run : ToolRunner)
    (st : BatchState) (toolCall : ToolCallRequest) (rest : List ToolCallRequest)
    (h : jsonParse toolCall.function.arguments = none) :
    processToolCall tools run st toolCall = st ∧
    processBatch tools run st (toolCall :: rest) = processBatch tools run st rest := by
  have h1 : processToolCall tools run st toolCall = st := by
    simp [processToolCall, h]
  exact ⟨h1, by simp [processBatch, h1]⟩

/-- Witness for C1: the malformed call is dropped by the loop handler and
the rest of the batch continues. -/
theorem C1_loop_parse_drop_witness :
    processToolCall (some [toolAdd]) runnerOk
      { currentMessages := [], toolResults := [], execLog := [] } callBad
      = { currentMessages := [], toolResults := [], execLog := [] } ∧
    processBatch (some [toolAdd]) runnerOk
      { currentMessages := [], toolResults := [], execLog := [] } [callBad, callAdd]
      = processBatch (some [toolAdd]) runnerOk
        { currentMessages := [], toolResults := [], execLog := [] } [callAdd] :=
  C1_loop_parse_drop (some [toolAdd]) runnerOk
    { currentMessages := [], toolResults := [], execLog := [] } callBad [callAdd] rfl

end Sim
